import Mathlib

/-!
Verification development for the `n8n-nodes-sui` repository.

The definitions below are shallow embeddings of the TypeScript source:

* `src/nodes/Sui/utils/unitConverter.ts` (unit conversion, hex helpers),
* `src/nodes/Sui/utils/objectUtils.ts` (address / object-id validation),
* `src/nodes/Sui/Sui.node.ts` (raw JSON-RPC envelopes, response handling,
  the per-item execution loop),
* `src/nodes/Sui/actions/*/*.operations.ts` and
  `src/nodes/Sui/transport/suiClient.ts` (signing-key preconditions),
* `src/nodes/Sui/transport/websocketClient.ts` (reconnect logic).

JavaScript `number` values are IEEE-754 binary64 floats.  They are embedded
as rational numbers together with an explicit correctly-rounded
round-to-nearest-ties-to-even operation `round64` (normal range only; every
value appearing in this development is far from overflow and underflow).
-/

namespace Sui

/-! ## IEEE-754 binary64 model over ℚ -/

/-- Fuel-driven base-2 integer logarithm on naturals: `natLog2Aux fuel n`
is the number of halvings needed to bring `n` to `1` (0 for `n ≤ 1`),
provided `fuel ≥ that count`. Structural recursion on the fuel keeps the
function kernel-reducible. -/
def natLog2Aux : ℕ → ℕ → ℕ
  | 0, _ => 0
  | fuel + 1, n => if n ≤ 1 then 0 else natLog2Aux fuel (n / 2) + 1

/-- Base-2 integer logarithm: greatest `k` with `2 ^ k ≤ n` (0 for `n ≤ 1`). -/
def natLog2 (n : ℕ) : ℕ := natLog2Aux n n

/-- Floor of the base-2 logarithm of a positive rational: the unique `z`
with `2 ^ z ≤ q < 2 ^ (z + 1)`. -/
def ratFloorLog2 (q : ℚ) : ℤ :=
  let za : ℤ := natLog2 q.num.toNat
  let zb : ℤ := natLog2 q.den
  let z := za - zb
  if (2 : ℚ) ^ z ≤ q then z else z - 1

/-- Round a rational to the nearest integer, ties to even. -/
def rnte (x : ℚ) : ℤ :=
  let f := ⌊x⌋
  let r := x - f
  if r < 1/2 then f
  else if 1/2 < r then f + 1
  else if f % 2 = 0 then f else f + 1

/-- Round a rational to the nearest IEEE-754 binary64 value (ties to even),
returned as the exact rational it denotes.  Normal range only: no overflow
or subnormal handling, which no value in this development reaches. -/
def round64 (q : ℚ) : ℚ :=
  if q = 0 then 0
  else
    let s : ℚ := if q < 0 then -1 else 1
    let aq := |q|
    let e : ℤ := ratFloorLog2 aq - 52
    s * (rnte (aq * (2 : ℚ) ^ (-e)) : ℚ) * (2 : ℚ) ^ e

/-- JavaScript float multiplication: exact product, correctly rounded. -/
def jsMul (x y : ℚ) : ℚ := round64 (x * y)

/-- JavaScript float division: exact quotient, correctly rounded. -/
def jsDiv (x y : ℚ) : ℚ := round64 (x / y)

/-- Value of `Math.pow(10, d)`: `10 ^ d` is exactly representable for
`d ≤ 22` and engines return the correctly rounded power of ten. -/
def jsPow10 (d : ℕ) : ℚ := round64 ((10 : ℚ) ^ d)

/-! ## `unitConverter.ts` — `toSmallestUnit`, `toFixed`, `fromSmallestUnit`

Source (`src/nodes/Sui/utils/unitConverter.ts`):

```ts
export function toSmallestUnit(amount: number | string, decimals: number): bigint {
  const amountNum = typeof amount === 'string' ? parseFloat(amount) : amount;
  return BigInt(Math.floor(amountNum * Math.pow(10, decimals)));
}

export function fromSmallestUnit(amount: bigint | string | number, decimals: number): string {
  const amountBigInt = BigInt(amount);
  const divisor = Math.pow(10, decimals);
  const result = Number(amountBigInt) / divisor;
  return result.toFixed(decimals);
}
```

`amount` in `toSmallestUnit` below stands for the binary64 value of the
input (a number literal, or the `parseFloat` of a numeric string, both of
which are the decimal value rounded by `round64`). -/

/-- Embedding of `toSmallestUnit`: float-multiply the amount by
`Math.pow(10, decimals)` and take `Math.floor` (exact on a float), then
convert to `BigInt` (exact on an integral float). -/
def toSmallestUnit (amount : ℚ) (decimals : ℕ) : ℤ :=
  ⌊jsMul amount (jsPow10 decimals)⌋

/-- Embedding of ECMAScript `Number.prototype.toFixed(d)` for non-negative
floats below `10^21`: `n` is the integer nearest to `x * 10^d` (ties pick
the larger), rendered with a decimal point before the last `d` digits. -/
def toFixed (x : ℚ) (d : ℕ) : String :=
  let n : ℤ := ⌊x * (10 : ℚ) ^ d + 1/2⌋
  let ds := Nat.toDigits 10 n.toNat
  if d = 0 then String.mk ds
  else
    let ds := List.replicate (d + 1 - ds.length) '0' ++ ds
    String.mk (ds.take (ds.length - d)) ++ "." ++ String.mk (ds.drop (ds.length - d))

/-- Embedding of `fromSmallestUnit`: `Number(amountBigInt)` rounds the
integer to the nearest binary64 (`round64`), the division is a float
division, and the result is formatted with `toFixed(decimals)`. -/
def fromSmallestUnit (amount : ℤ) (decimals : ℕ) : String :=
  toFixed (jsDiv (round64 (amount : ℚ)) (jsPow10 decimals)) decimals

/-! ## `objectUtils.ts` — identifier validation and normalization

Source (`src/nodes/Sui/utils/objectUtils.ts`):

```ts
export function normalizeObjectId(objectId: string): string {
  const cleanId = objectId.startsWith('0x') ? objectId.slice(2) : objectId;
  const paddedId = cleanId.padStart(64, '0');
  return `0x${paddedId}`;
}
export function isValidObjectId(objectId: string): boolean {
  if (!objectId) return false;
  const cleanId = objectId.startsWith('0x') ? objectId.slice(2) : objectId;
  return /^[a-fA-F0-9]{1,64}$/.test(cleanId);
}
export function isValidSuiAddress(address: string): boolean {
  if (!address) return false;
  const cleanAddress = address.startsWith('0x') ? address.slice(2) : address;
  return /^[a-fA-F0-9]{64}$/.test(cleanAddress);
}
```
-/

/-- Membership in the regex character class `[a-fA-F0-9]`. -/
def isHexChar (c : Char) : Bool :=
  ('a' ≤ c && c ≤ 'f') || ('A' ≤ c && c ≤ 'F') || ('0' ≤ c && c ≤ '9')

/-- Character-list form of the `s.startsWith('0x') ? s.slice(2) : s` idiom. -/
def strip0xData : List Char → List Char
  | c₁ :: c₂ :: rest => if c₁ = '0' ∧ c₂ = 'x' then rest else c₁ :: c₂ :: rest
  | l => l

/-- The `s.startsWith('0x') ? s.slice(2) : s` idiom, shared by the
validation, normalization and hex-decoding helpers. -/
def strip0x (s : String) : String :=
  String.mk (strip0xData s.data)

/-- Embedding of `normalizeObjectId`: strip an optional `0x`, left-pad with
`'0'` to 64 characters (`padStart` keeps strings already that long), and
re-attach the `0x` marker. -/
def normalizeObjectId (objectId : String) : String :=
  let cleanId := strip0x objectId
  let paddedId := List.replicate (64 - cleanId.data.length) '0' ++ cleanId.data
  String.mk ('0' :: 'x' :: paddedId)

/-- Embedding of `isValidObjectId`: the guard `!objectId` rejects the empty
string, then the regex `^[a-fA-F0-9]{1,64}$` is tested on the stripped id. -/
def isValidObjectId (objectId : String) : Bool :=
  if objectId = "" then false
  else
    let cleanId := strip0x objectId
    decide (1 ≤ cleanId.data.length) && decide (cleanId.data.length ≤ 64)
      && cleanId.data.all isHexChar

/-- Embedding of `isValidSuiAddress`: the guard `!address` rejects the empty
string, then the regex `^[a-fA-F0-9]{64}$` is tested on the stripped id. -/
def isValidSuiAddress (address : String) : Bool :=
  if address = "" then false
  else
    let cleanAddress := strip0x address
    decide (cleanAddress.data.length = 64) && cleanAddress.data.all isHexChar

/-- Validity predicate written from the specification text: accept exactly
when, after stripping an optional `0x`, the string consists of exactly 64
hexadecimal characters. -/
def specValid64Hex (s : String) : Bool :=
  decide ((strip0x s).data.length = 64) && (strip0x s).data.all isHexChar

/-- Variant of the specification predicate with the length window the source
regex `{1,64}` actually implements. -/
def specValid1To64Hex (s : String) : Bool :=
  decide (1 ≤ (strip0x s).data.length) && decide ((strip0x s).data.length ≤ 64)
    && (strip0x s).data.all isHexChar

/-! ## Hex encoding and decoding

Source (`src/nodes/Sui/utils/unitConverter.ts`, BCS helper section):

```ts
export function hexToBytes(hex: string): Uint8Array {
  const cleanHex = hex.startsWith('0x') ? hex.slice(2) : hex;
  const bytes = new Uint8Array(cleanHex.length / 2);
  for (let i = 0; i < bytes.length; i++) {
    bytes[i] = parseInt(cleanHex.substr(i * 2, 2), 16);
  }
  return bytes;
}
export function bytesToHex(bytes: Uint8Array, prefix = true): string {
  const hex = Array.from(bytes)
    .map((b) => b.toString(16).padStart(2, '0'))
    .join('');
  return prefix ? `0x${hex}` : hex;
}
```
-/

/-- Numeric value of one hex digit, `none` for any other character. -/
def hexDigitVal (c : Char) : Option ℕ :=
  if '0' ≤ c ∧ c ≤ '9' then some (c.toNat - '0'.toNat)
  else if 'a' ≤ c ∧ c ≤ 'f' then some (c.toNat - 'a'.toNat + 10)
  else if 'A' ≤ c ∧ c ≤ 'F' then some (c.toNat - 'A'.toNat + 10)
  else none

/-- Embedding of `parseInt(pair, 16)` on a two-character chunk followed by a
`Uint8Array` element store: `parseInt` consumes the longest leading run of
hex digits (`NaN` when empty), and storing `NaN` yields `0`. -/
def parseHexPair (c₁ c₂ : Char) : ℕ :=
  match hexDigitVal c₁ with
  | none => 0
  | some d₁ =>
    match hexDigitVal c₂ with
    | none => d₁
    | some d₂ => 16 * d₁ + d₂

/-- The decoding loop of `hexToBytes`: byte `i` parses `substr(i * 2, 2)`. -/
def parseHexPairs : List Char → List ℕ
  | c₁ :: c₂ :: rest => parseHexPair c₁ c₂ :: parseHexPairs rest
  | _ => []

/-- Embedding of `hexToBytes`.  On an odd-length (stripped) input the source
evaluates `new Uint8Array(cleanHex.length / 2)` with a fractional length,
which throws a `RangeError`; that is the `none` branch. -/
def hexToBytes (hex : String) : Option (List ℕ) :=
  let cleanHex := strip0x hex
  if cleanHex.data.length % 2 = 0 then some (parseHexPairs cleanHex.data) else none

/-- Embedding of `b.toString(16).padStart(2, '0')` for a `Uint8Array`
element, which is always `< 256`. -/
def byteToHex (b : ℕ) : List Char :=
  if b < 16 then ['0', Nat.digitChar b]
  else [Nat.digitChar (b / 16), Nat.digitChar (b % 16)]

/-- Embedding of `bytesToHex`: concatenate the two-digit chunks and
optionally attach the `0x` marker (the source defaults to attaching it). -/
def bytesToHex (bytes : List ℕ) (withPfx : Bool) : String :=
  let hex := (bytes.map byteToHex).flatten
  if withPfx then String.mk ('0' :: 'x' :: hex) else String.mk hex

/-! ## JSON values and JavaScript truthiness

The raw JSON-RPC path of the legacy node (`src/nodes/Sui/Sui.node.ts`)
builds request bodies as object literals and discriminates responses with
JavaScript truthiness tests (`if (result.error)`, `result.result || result`).
`JsonValue` is the value universe; `undefined` (an absent property) is
`Option.none` at lookup sites. -/

/-- JSON values as the legacy node manipulates them. -/
inductive JsonValue where
  | null
  | bool (b : Bool)
  | num (n : ℤ)
  | str (s : String)
  | arr (elems : List JsonValue)
  | obj (fields : List (String × JsonValue))

/-- Property lookup on an object literal; `none` for a missing property or
a non-object, matching JavaScript `undefined`. -/
def lookupField : List (String × JsonValue) → String → Option JsonValue
  | [], _ => none
  | (k', v) :: rest, k => if k' = k then some v else lookupField rest k

/-- JavaScript property access `v[k]` on a `JsonValue`. -/
def jsGet (v : JsonValue) (k : String) : Option JsonValue :=
  match v with
  | .obj fields => lookupField fields k
  | _ => none

/-- JavaScript truthiness of a JSON value: `null`, `false`, `0` and `""`
are falsy; every object and array is truthy. -/
def truthy : JsonValue → Bool
  | .null => false
  | .bool b => b
  | .num n => decide (n ≠ 0)
  | .str s => decide (s ≠ "")
  | .arr _ => true
  | .obj _ => true

/-- Truthiness of a possibly-absent value; `undefined` is falsy. -/
def truthyOpt : Option JsonValue → Bool
  | none => false
  | some v => truthy v

/-- Keys of an object literal, in construction order. -/
def objKeys : JsonValue → List String
  | .obj fields => fields.map Prod.fst
  | _ => []

/-! ## Raw JSON-RPC request bodies of the legacy node

Each `case` of `executeTransactionsOperations` in `src/nodes/Sui/Sui.node.ts`
builds a literal `{ jsonrpc: '2.0', id: 1, method, params }`. -/

/-- Request body of the `getTransaction` case: `params: [digest, options]`. -/
def getTransactionRequestBody (digest : String) (options : JsonValue) : JsonValue :=
  .obj [("jsonrpc", .str "2.0"), ("id", .num 1),
        ("method", .str "sui_getTransaction"),
        ("params", .arr [.str digest, options])]

/-- Request body of the `multiGetTransactions` case:
`params: [digests, options]`. -/
def multiGetTransactionsRequestBody (digests : List JsonValue) (options : JsonValue) :
    JsonValue :=
  .obj [("jsonrpc", .str "2.0"), ("id", .num 1),
        ("method", .str "sui_multiGetTransactions"),
        ("params", .arr [.arr digests, options])]

/-- Request body of the `queryTransactionBlocks` case; `cursor || null`
replaces an empty cursor string with JSON `null`. -/
def queryTransactionBlocksRequestBody (filter : JsonValue) (cursor : String)
    (limit : ℤ) (descendingOrder : Bool) : JsonValue :=
  .obj [("jsonrpc", .str "2.0"), ("id", .num 1),
        ("method", .str "sui_queryTransactionBlocks"),
        ("params", .arr [.obj [("filter", filter),
                               ("cursor", if cursor = "" then .null else .str cursor),
                               ("limit", .num limit),
                               ("descending_order", .bool descendingOrder)]])]

/-- Request body of the `executeTransactionBlock` case:
`params: [txBytes, signatures, options, requestType]`. -/
def executeTransactionBlockRequestBody (txBytes : String) (signatures : List JsonValue)
    (options : JsonValue) (requestType : String) : JsonValue :=
  .obj [("jsonrpc", .str "2.0"), ("id", .num 1),
        ("method", .str "sui_executeTransactionBlock"),
        ("params", .arr [.str txBytes, .arr signatures, options, .str requestType])]

/-- Request body of the `dryRunTransactionBlock` case: `params: [txBytes]`. -/
def dryRunTransactionBlockRequestBody (txBytes : String) : JsonValue :=
  .obj [("jsonrpc", .str "2.0"), ("id", .num 1),
        ("method", .str "sui_dryRunTransactionBlock"),
        ("params", .arr [.str txBytes])]

/-- Request body of the `devInspectTransactionBlock` case: `gasPrice` and
`epoch` are pushed onto `params` only when truthy (non-empty). -/
def devInspectTransactionBlockRequestBody (senderAddress txBytes gasPrice epoch : String) :
    JsonValue :=
  .obj [("jsonrpc", .str "2.0"), ("id", .num 1),
        ("method", .str "sui_devInspectTransactionBlock"),
        ("params", .arr ([.str senderAddress, .str txBytes]
          ++ (if gasPrice = "" then [] else [.str gasPrice])
          ++ (if epoch = "" then [] else [.str epoch])))]

/-! ## Response handling and the per-item execution loop

Source (`src/nodes/Sui/Sui.node.ts`, `executeTransactionsOperations`):

```ts
if (result.error) {
  throw new NodeApiError(this.getNode(), result, {
    message: result.error.message,
    description: result.error.data,
  });
}
returnData.push({ json: result.result || result, pairedItem: { item: i } });
} catch (error: any) {
  if (this.continueOnFail()) {
    returnData.push({ json: { error: error.message }, pairedItem: { item: i } });
  } else {
    throw error;
  }
}
```
-/

/-- Response handling of one raw JSON-RPC response: a truthy `error`
property throws (the thrown `NodeApiError` carries the whole response);
otherwise the pushed payload is `result.result || result`. -/
def handleResponse (result : JsonValue) : Except JsonValue JsonValue :=
  if truthyOpt (jsGet result "error") then .error result
  else
    .ok (match jsGet result "result" with
         | some r => if truthy r then r else result
         | none => result)

/-- Message of the `NodeApiError` thrown on a truthy `error` property:
`result.error.message` (empty for a non-string). -/
def errMessageOf (result : JsonValue) : String :=
  match jsGet result "error" with
  | some e =>
    match jsGet e "message" with
    | some (.str m) => m
    | _ => ""
  | none => ""

/-- One item of the host's output stream. -/
structure OutItem where
  json : JsonValue
  pairedItem : ℕ

/-- Outcome of processing one item inside the `try` block: the remote call
either throws (transport failure, `Except.error`) or yields a response
which `handleResponse` then accepts or throws on. -/
def itemResult : Except String JsonValue → Except String JsonValue
  | .error m => .error m
  | .ok r =>
    match handleResponse r with
    | .error rr => .error (errMessageOf rr)
    | .ok v => .ok v

/-- The per-item `for` loop of `executeTransactionsOperations`, starting at
item index `i`: a caught failure with `continueOnFail` pushes an error
record and continues; without it the whole run aborts (re-throw). -/
def executeLoopFrom (i : ℕ) (continueOnFail : Bool) :
    List (Except String JsonValue) → Except String (List OutItem)
  | [] => .ok []
  | o :: rest =>
    match itemResult o with
    | .ok j =>
      match executeLoopFrom (i + 1) continueOnFail rest with
      | .ok tl => .ok (⟨j, i⟩ :: tl)
      | .error e => .error e
    | .error m =>
      if continueOnFail then
        match executeLoopFrom (i + 1) continueOnFail rest with
        | .ok tl => .ok (⟨.obj [("error", .str m)], i⟩ :: tl)
        | .error e => .error e
      else .error m

/-- The whole per-item loop, as `executeTransactionsOperations` runs it:
`outcomes` lists each item's remote-call outcome in item order. -/
def executeTransactionsOperations (outcomes : List (Except String JsonValue))
    (continueOnFail : Bool) : Except String (List OutItem) :=
  executeLoopFrom 0 continueOnFail outcomes

/-- Output record a single item contributes when the loop does not abort. -/
def itemOut (i : ℕ) (o : Except String JsonValue) : OutItem :=
  match itemResult o with
  | .ok j => ⟨j, i⟩
  | .error m => ⟨.obj [("error", .str m)], i⟩

/-- Pointwise outputs of a run starting at index `i`. -/
def outsFrom (i : ℕ) : List (Except String JsonValue) → List OutItem
  | [] => []
  | o :: rest => itemOut i o :: outsFrom (i + 1) rest

/-! ## Client and credential initialization (`transport/suiClient.ts`)

```ts
export function createKeypair(privateKey, keyScheme) {
  const cleanKey = privateKey.startsWith('0x') ? privateKey.slice(2) : privateKey;
  const keyBytes = Buffer.from(cleanKey, 'hex');
  switch (keyScheme) { ... }
}
export async function initializeSuiFromContext(context, credentialsName = 'suiNetwork') {
  const credentials = await getSuiCredentials(context, credentialsName);
  const client = createSuiClient(credentials);
  let keypair; let address;
  if (credentials.privateKey) {
    keypair = createKeypair(credentials.privateKey, credentials.keyScheme);
    address = getAddressFromKeypair(keypair);
  }
  return { client, keypair, address, credentials };
}
```

The SDK keypair types and the cryptographic address derivation live outside
this repository; a keypair is embedded as its scheme plus the cleaned key
material, and the derivation `getAddressFromKeypair` is an arbitrary
function parameter `derive`. -/

/-- The three signature schemes the credentials may select. -/
inductive KeyScheme where
  | ed25519
  | secp256k1
  | secp256r1

/-- A derived keypair: the scheme and the `0x`-stripped key material
handed to the SDK constructor. -/
structure Keypair where
  scheme : KeyScheme
  keyHex : String

/-- Embedding of `createKeypair`. -/
def createKeypair (privateKey : String) (keyScheme : KeyScheme) : Keypair :=
  ⟨keyScheme, strip0x privateKey⟩

/-- Decrypted credential material, as `getSuiCredentials` shapes it. -/
structure SuiCredentials where
  network : String
  customRpcUrl : Option String
  privateKey : Option String
  keyScheme : KeyScheme
  faucetUrl : Option String

/-- Embedding of `initializeSuiFromContext`, minus the client construction
(purely local, no remote call): the keypair and address exist exactly when
`credentials.privateKey` is truthy (present and non-empty).  `derive`
stands for the SDK's `getAddressFromKeypair`. -/
def initializeSuiFromContext (derive : Keypair → String) (credentials : SuiCredentials) :
    Option Keypair × Option String :=
  match credentials.privateKey with
  | some pk =>
    if pk = "" then (none, none)
    else
      let kp := createKeypair pk credentials.keyScheme
      (some kp, some (derive kp))
  | none => (none, none)

/-! ## Operation handlers that require a signing identity

Each signing case in `transaction.operations.ts`, `staking.operations.ts`
and the contract operations file opens with
`if (!keypair || !address) throw new Error('Private key is required ...')`
before any remote call.  A handler run is recorded as the ordered list of
remote calls it issued plus its outcome; the SDK response is abstracted as
the `result` argument. -/

/-- Trace of one handler invocation: remote calls issued, in order, and the
final outcome. -/
structure OpTrace where
  remoteCalls : List String
  outcome : Except String JsonValue

/-- Embedding of the `transferSui` case of `executeTransactionOperation`. -/
def transferSuiOperation (keypair : Option Keypair) (address : Option String)
    (recipient : String) (amount : ℚ) (result : JsonValue) : OpTrace :=
  if keypair.isNone || address.isNone then
    ⟨[], .error "Private key is required for transactions"⟩
  else
    ⟨["signAndExecuteTransaction"],
     .ok (.obj [("digest", (jsGet result "digest").getD .null),
                ("status", (jsGet result "effects").bind (jsGet · "status") |>.getD .null),
                ("gasUsed", (jsGet result "effects").bind (jsGet · "gasUsed") |>.getD .null),
                ("from", .str (address.getD "")),
                ("to", .str recipient),
                ("amount", .str (toString amount)),
                ("amountMist", .str (toString ⌊jsMul amount (jsPow10 9)⌋))])⟩

/-- Embedding of the `transferObject` case of `executeTransactionOperation`. -/
def transferObjectOperation (keypair : Option Keypair) (address : Option String)
    (recipient objectId : String) (result : JsonValue) : OpTrace :=
  if keypair.isNone || address.isNone then
    ⟨[], .error "Private key is required for transactions"⟩
  else
    ⟨["signAndExecuteTransaction"],
     .ok (.obj [("digest", (jsGet result "digest").getD .null),
                ("objectId", .str objectId),
                ("from", .str (address.getD "")),
                ("to", .str recipient)])⟩

/-- Embedding of the `paySui` case of `executeTransactionOperation`; the
recipient-list emptiness check comes after the key check. -/
def paySuiOperation (keypair : Option Keypair) (address : Option String)
    (recipients : List (String × ℚ)) (result : JsonValue) : OpTrace :=
  if keypair.isNone || address.isNone then
    ⟨[], .error "Private key is required for transactions"⟩
  else if recipients.isEmpty then
    ⟨[], .error "At least one recipient is required"⟩
  else
    ⟨["signAndExecuteTransaction"],
     .ok (.obj [("digest", (jsGet result "digest").getD .null),
                ("from", .str (address.getD ""))])⟩

/-- Embedding of the `payAllSui` case of `executeTransactionOperation`. -/
def payAllSuiOperation (keypair : Option Keypair) (address : Option String)
    (recipient : String) (result : JsonValue) : OpTrace :=
  if keypair.isNone || address.isNone then
    ⟨[], .error "Private key is required for transactions"⟩
  else
    ⟨["signAndExecuteTransaction"],
     .ok (.obj [("digest", (jsGet result "digest").getD .null),
                ("from", .str (address.getD "")),
                ("to", .str recipient),
                ("drainedWallet", .bool true)])⟩

/-- Embedding of the `moveCall` case of `executeContractOperation`. -/
def moveCallOperation (keypair : Option Keypair) (address : Option String)
    (packageId moduleName functionName : String) (result : JsonValue) : OpTrace :=
  if keypair.isNone || address.isNone then
    ⟨[], .error "Private key is required for Move calls"⟩
  else
    ⟨["signAndExecuteTransaction"],
     .ok (.obj [("digest", (jsGet result "digest").getD .null),
                ("target", .str (packageId ++ "::" ++ moduleName ++ "::" ++ functionName))])⟩

/-- Embedding of the `stakeSui` case of `executeStakingOperation`; the
minimum-amount check comes after the key check. -/
def stakeSuiOperation (keypair : Option Keypair) (address : Option String)
    (validatorAddress : String) (amount : ℚ) (result : JsonValue) : OpTrace :=
  if keypair.isNone || address.isNone then
    ⟨[], .error "Private key is required for staking"⟩
  else if amount < 1 then
    ⟨[], .error "Minimum stake amount is 1 SUI"⟩
  else
    ⟨["signAndExecuteTransaction"],
     .ok (.obj [("digest", (jsGet result "digest").getD .null),
                ("from", .str (address.getD "")),
                ("validatorAddress", .str validatorAddress),
                ("amount", .str (toString amount))])⟩

/-- Embedding of the `unstakeSui` case of `executeStakingOperation`. -/
def unstakeSuiOperation (keypair : Option Keypair) (address : Option String)
    (stakedSuiId : String) (result : JsonValue) : OpTrace :=
  if keypair.isNone || address.isNone then
    ⟨[], .error "Private key is required for unstaking"⟩
  else
    ⟨["signAndExecuteTransaction"],
     .ok (.obj [("digest", (jsGet result "digest").getD .null),
                ("from", .str (address.getD "")),
                ("stakedSuiId", .str stakedSuiId)])⟩

/-! ## WebSocket reconnect logic (`transport/websocketClient.ts`)

```ts
private reconnectAttempts = 0;
private maxReconnectAttempts = 5;
private reconnectDelay = 1000;
private isClosing = false;

close(): void { this.isClosing = true; ... }

this.ws.on('open', () => { this.reconnectAttempts = 0; resolve(); });
this.ws.on('error', (e) => { if (!this.isClosing) this.onError(e); reject(e); });
this.ws.on('close', () => { if (!this.isClosing) this.handleReconnect(); });

private async handleReconnect(): Promise<void> {
  if (this.reconnectAttempts >= this.maxReconnectAttempts) {
    this.onError(new Error('Max reconnection attempts reached'));
    return;
  }
  this.reconnectAttempts++;
  const delay = this.reconnectDelay * Math.pow(2, this.reconnectAttempts - 1);
  await new Promise((resolve) => setTimeout(resolve, delay));
  try { await this.connect(); } catch { }
}
```

The client is embedded as a state machine driven by event-loop events.
`handleReconnect`'s sleep is the `pendingReconnect` flag: `timerFire` is the
sleep elapsing, after which `connect()` is invoked with no further
`isClosing` check — exactly as in the source. -/

/-- Mutable state of `SuiWebSocketClient` relevant to reconnection. -/
structure WsState where
  reconnectAttempts : ℕ
  isClosing : Bool
  pendingReconnect : Bool

/-- The `maxReconnectAttempts = 5` field. -/
def maxReconnectAttempts : ℕ := 5

/-- The `reconnectDelay = 1000` field (milliseconds). -/
def reconnectDelay : ℕ := 1000

/-- Event-loop events the reconnect logic reacts to. -/
inductive WsEvent where
  | connOpen
  | socketClosed
  | socketError (msg : String)
  | callerClose
  | timerFire

/-- Observable actions of the reconnect logic. -/
inductive WsAction where
  | scheduleDelay (ms : ℕ)
  | connectAttempt
  | errorSink (msg : String)
deriving DecidableEq

/-- Embedding of `handleReconnect` up to its sleep: at the attempt cap it
reports the terminal error; otherwise it increments the counter and starts
the backoff timer with delay `reconnectDelay * 2 ^ (attempts - 1)`. -/
def handleReconnect (s : WsState) : WsState × List WsAction :=
  if s.reconnectAttempts ≥ maxReconnectAttempts then
    (s, [.errorSink "Max reconnection attempts reached"])
  else
    ({ s with reconnectAttempts := s.reconnectAttempts + 1, pendingReconnect := true },
     [.scheduleDelay (reconnectDelay * 2 ^ s.reconnectAttempts)])

/-- One event-loop step of the client. -/
def wsStep (s : WsState) : WsEvent → WsState × List WsAction
  | .connOpen => ({ s with reconnectAttempts := 0 }, [])
  | .socketClosed => if s.isClosing then (s, []) else handleReconnect s
  | .socketError m => (s, if s.isClosing then [] else [.errorSink m])
  | .callerClose => ({ s with isClosing := true }, [])
  | .timerFire =>
    if s.pendingReconnect then ({ s with pendingReconnect := false }, [.connectAttempt])
    else (s, [])

/-- Run the client over an event sequence, collecting all actions. -/
def wsRun (s : WsState) : List WsEvent → WsState × List WsAction
  | [] => (s, [])
  | e :: rest =>
    let (s', out) := wsStep s e
    let (s'', outs) := wsRun s' rest
    (s'', out ++ outs)

/-- Initial state of a freshly constructed client. -/
def wsInit : WsState := ⟨0, false, false⟩

/-- The event trace of `n` failed reconnect cycles: each unexpected socket
close is followed by the backoff timer elapsing. -/
def closeBurst : ℕ → List WsEvent
  | 0 => []
  | n + 1 => WsEvent.socketClosed :: WsEvent.timerFire :: closeBurst n

/-- The delay of a `scheduleDelay` action, for extracting backoff delays. -/
def delayOf : WsAction → Option ℕ
  | .scheduleDelay ms => some ms
  | _ => none

/-!
# Theorems

The claim theorems below settle the spec claims against the embeddings
above. Concrete binary64 computations are discharged by kernel evaluation,
which needs the arithmetic on `ℚ` to unfold.
-/

section UnitConversion

attribute [local semireducible] Rat.mul Rat.inv Rat.add Rat.sub

set_option maxRecDepth 1000000

/-- C1: the round-trip law `fromSmallestUnit(toSmallestUnit(x, d), d) == x`
(formatted to `d` places) fails on the code at `x = 0.29`, `d = 2`, a value
with 2 significant fractional digits: the float product `0.29 * 100`
evaluates to `28.999999999999996`, `toSmallestUnit` floors it to `28`, and
the round trip renders `"0.28"` where the exact fixed-point rendering of
`0.29` is `"0.29"`. -/
theorem c1_roundtrip_fails_at_029 :
    toSmallestUnit (round64 (29/100)) 2 = 28 ∧
    fromSmallestUnit (toSmallestUnit (round64 (29/100)) 2) 2 = "0.28" ∧
    toFixed (29/100) 2 = "0.29" := by
  refine ⟨by decide, by decide, by decide⟩

/-- C2: `toSmallestUnit` matches the mathematical `floor(amount * 10^d)` on
the three singled-out instances, but not universally: at `amount = 1.15`,
`d = 2` the float product is `114.99999999999999`, so the code returns
`114` while `floor(1.15 * 100) = 115`. -/
theorem c2_toSmallestUnit_float_slip :
    toSmallestUnit (round64 1) 9 = 1000000000 ∧
    toSmallestUnit (round64 (1/2)) 9 = 500000000 ∧
    toSmallestUnit 0 9 = 0 ∧
    toSmallestUnit (round64 (115/100)) 2 = 114 ∧
    ⌊(115 : ℚ)/100 * 10 ^ 2⌋ = 115 := by
  refine ⟨by decide, by decide, by decide, by decide, by decide⟩

/-- C3: `fromSmallestUnit` renders the two singled-out instances exactly,
but the `Number(amountBigInt)` float intermediate loses precision above
`2^53`: at `amount = 2^53 + 1 = 9007199254740993`, `d = 0` the code returns
`"9007199254740992"` while the exact rendering is `"9007199254740993"`. -/
theorem c3_fromSmallestUnit_precision_bug :
    fromSmallestUnit 1000000000 9 = "1.000000000" ∧
    fromSmallestUnit 0 9 = "0.000000000" ∧
    fromSmallestUnit (2 ^ 53 + 1) 0 = "9007199254740992" ∧
    toFixed ((2 : ℚ) ^ 53 + 1) 0 = "9007199254740993" := by
  refine ⟨by decide, by decide, by decide, by decide⟩

end UnitConversion

/-! ### Hex round trip (C10) -/

/-- Every hex digit character produced by `Nat.digitChar` parses back to
its value. -/
lemma hexDigitVal_digitChar : ∀ d, d < 16 → hexDigitVal (Nat.digitChar d) = some d := by
  decide

/-- No hex digit character is `'x'`. -/
lemma digitChar_ne_x : ∀ d, d < 16 → Nat.digitChar d ≠ 'x' := by
  decide

/-- A nonzero hex digit character is not `'0'`. -/
lemma digitChar_ne_zero : ∀ d, d < 16 → 1 ≤ d → Nat.digitChar d ≠ '0' := by
  decide

/-- The two-digit chunk of a byte has length 2. -/
lemma byteToHex_length (b : ℕ) : (byteToHex b).length = 2 := by
  unfold byteToHex; split <;> rfl

/-- Parsing a two-digit chunk at the head of the stream recovers the byte. -/
lemma parseHexPairs_byteToHex (b : ℕ) (hb : b < 256) (l : List Char) :
    parseHexPairs (byteToHex b ++ l) = b :: parseHexPairs l := by
  unfold byteToHex
  by_cases h : b < 16
  · simp only [if_pos h, List.cons_append, List.nil_append, parseHexPairs, parseHexPair]
    have h0 : hexDigitVal '0' = some 0 := by decide
    rw [h0, hexDigitVal_digitChar b h]
    simp
  · have hdiv : b / 16 < 16 := Nat.div_lt_of_lt_mul (by omega)
    have hmod : b % 16 < 16 := Nat.mod_lt _ (by omega)
    simp only [if_neg h, List.cons_append, List.nil_append, parseHexPairs, parseHexPair]
    rw [hexDigitVal_digitChar _ hdiv, hexDigitVal_digitChar _ hmod]
    simp [Nat.div_add_mod]

/-- Decoding the concatenated chunks recovers the byte list. -/
lemma parseHexPairs_flatten (bs : List ℕ) (h : ∀ b ∈ bs, b < 256) :
    parseHexPairs ((bs.map byteToHex).flatten) = bs := by
  induction bs with
  | nil => rfl
  | cons b rest ih =>
    simp only [List.map_cons, List.flatten_cons]
    rw [parseHexPairs_byteToHex b (h b (by simp)) _]
    rw [ih (fun x hx => h x (by simp [hx]))]

/-- The concatenated chunks have even length. -/
lemma flatten_byteToHex_even (bs : List ℕ) :
    ((bs.map byteToHex).flatten).length % 2 = 0 := by
  induction bs with
  | nil => rfl
  | cons b rest ih =>
    simp only [List.map_cons, List.flatten_cons, List.length_append, byteToHex_length]
    omega

/-- A list that does not begin with the marker `0x` is left unchanged. -/
lemma strip0xData_no_marker (c₁ c₂ : Char) (rest : List Char)
    (h : ¬(c₁ = '0' ∧ c₂ = 'x')) : strip0xData (c₁ :: c₂ :: rest) = c₁ :: c₂ :: rest := by
  simp only [strip0xData, if_neg h]

/-- C10: hex round trip — decoding the hex encoding of any byte array
returns the byte array, both with the default `0x` marker and without it. -/
theorem c10_hex_roundtrip (bs : List ℕ) (h : ∀ b ∈ bs, b < 256) (withPfx : Bool) :
    hexToBytes (bytesToHex bs withPfx) = some bs := by
  have heven := flatten_byteToHex_even bs
  have hparse := parseHexPairs_flatten bs h
  cases withPfx with
  | true =>
    show hexToBytes (String.mk ('0' :: 'x' :: (bs.map byteToHex).flatten)) = some bs
    unfold hexToBytes strip0x
    have hmk : strip0xData ('0' :: 'x' :: (bs.map byteToHex).flatten)
        = (bs.map byteToHex).flatten := by
      simp [strip0xData]
    rw [hmk, if_pos heven, hparse]
  | false =>
    show hexToBytes (String.mk ((bs.map byteToHex).flatten)) = some bs
    unfold hexToBytes strip0x
    have hstr : strip0xData ((bs.map byteToHex).flatten) = (bs.map byteToHex).flatten := by
      cases bs with
      | nil => rfl
      | cons b rest =>
        simp only [List.map_cons, List.flatten_cons]
        unfold byteToHex
        by_cases hb : b < 16
        · simp only [if_pos hb, List.cons_append, List.nil_append]
          exact strip0xData_no_marker _ _ _
            (fun hc => digitChar_ne_x b hb hc.2)
        · have hdiv : b / 16 < 16 := Nat.div_lt_of_lt_mul (by
            have := h b (by simp); omega)
          have h1 : 1 ≤ b / 16 := (Nat.one_le_div_iff (by omega)).mpr (by omega)
          simp only [if_neg hb, List.cons_append, List.nil_append]
          exact strip0xData_no_marker _ _ _
            (fun hc => digitChar_ne_zero _ hdiv h1 hc.1)
    rw [hstr, if_pos heven, hparse]

/-- C10 witness: the round trip evaluated on a concrete byte array, with
and without the `0x` marker. -/
theorem c10_hex_roundtrip_witness :
    hexToBytes (bytesToHex [0, 10, 171, 255] true) = some [0, 10, 171, 255] ∧
    hexToBytes (bytesToHex [0, 10, 171, 255] false) = some [0, 10, 171, 255] :=
  ⟨c10_hex_roundtrip [0, 10, 171, 255] (by decide) true,
   c10_hex_roundtrip [0, 10, 171, 255] (by decide) false⟩

/-! ### Identifier validation and normalization (C6) -/

/-- Stripping removes a leading `0x` marker. -/
lemma strip0x_marker (l : List Char) : strip0x (String.mk ('0' :: 'x' :: l)) = String.mk l := by
  simp [strip0x, strip0xData]

/-- C6 counterexample: `isValidObjectId` accepts the 2-character identifier
`"ab"`, which the claim — exactly 64 hexadecimal characters after stripping
an optional `0x` — rejects: the source regex is `{1,64}`, not `{64}`. -/
theorem c6_objectId_accepts_short :
    isValidObjectId "ab" = true ∧ specValid64Hex "ab" = false := by
  refine ⟨by decide, by decide⟩

/-- C6 amended: `isValidSuiAddress` accepts exactly the strings that strip
to 64 hex characters; `isValidObjectId` accepts exactly the strings that
strip to between 1 and 64 hex characters; for any valid object id,
`normalizeObjectId` returns `0x` followed by `'0'`-characters padded on the
left of the stripped identifier, which is preserved verbatim as the suffix,
yielding a valid 64-hex-character form; and an already-normalized
identifier is returned unchanged. -/
theorem c6_amended :
    (∀ s, isValidSuiAddress s = specValid64Hex s) ∧
    (∀ s, isValidObjectId s = specValid1To64Hex s) ∧
    (∀ s, isValidObjectId s = true →
      (normalizeObjectId s).data
          = '0' :: 'x' ::
            (List.replicate (64 - (strip0x s).data.length) '0' ++ (strip0x s).data) ∧
      specValid64Hex (normalizeObjectId s) = true) ∧
    (∀ l : List Char, l.length = 64 →
      normalizeObjectId (String.mk ('0' :: 'x' :: l)) = String.mk ('0' :: 'x' :: l)) := by
  refine ⟨?_, ?_, ?_, ?_⟩
  · intro s
    by_cases hs : s = ""
    · subst hs; decide
    · simp [isValidSuiAddress, specValid64Hex, hs]
  · intro s
    by_cases hs : s = ""
    · subst hs; decide
    · simp [isValidObjectId, specValid1To64Hex, hs, Bool.and_assoc]
  · intro s h
    by_cases hs : s = ""
    · subst hs; exact absurd h (by decide)
    · simp only [isValidObjectId, if_neg hs, Bool.and_eq_true, decide_eq_true_eq] at h
      obtain ⟨⟨h1, h64⟩, hhex⟩ := h
      refine ⟨rfl, ?_⟩
      have hdata : (strip0x (normalizeObjectId s)).data
          = List.replicate (64 - (strip0x s).data.length) '0' ++ (strip0x s).data := by
        simp only [normalizeObjectId]
        rw [strip0x_marker]
      simp only [specValid64Hex, hdata, Bool.and_eq_true, decide_eq_true_eq,
        List.length_append, List.length_replicate, List.all_append]
      refine ⟨by omega, ?_, hhex⟩
      simp only [List.all_eq_true]
      intro c hc
      rw [List.eq_of_mem_replicate hc]
      decide
  · intro l hl
    simp only [normalizeObjectId]
    rw [strip0x_marker]
    simp [hl]

/-- C6 amended witness: the left-zero-pad clause at the concrete id `"ab"`
(62 `'0'`-characters padded on the left of the preserved `ab`, with the
result a valid normalized identifier) and the unchanged clause at a
concrete already-normalized identifier. -/
theorem c6_amended_witness :
    ((normalizeObjectId "ab").data
        = '0' :: 'x' :: (List.replicate 62 '0' ++ ['a', 'b']) ∧
      specValid64Hex (normalizeObjectId "ab") = true) ∧
    normalizeObjectId (String.mk ('0' :: 'x' :: List.replicate 64 'a'))
      = String.mk ('0' :: 'x' :: List.replicate 64 'a') :=
  ⟨c6_amended.2.2.1 "ab" (by decide),
   c6_amended.2.2.2 (List.replicate 64 'a') (by decide)⟩

/-! ### Raw JSON-RPC envelope and response discrimination (C4, C5) -/

/-- C4 counterexample: the raw request body the legacy node builds for
`getTransaction` has keys `jsonrpc`, `id`, `method`, `params` — there is no
`protocolVersion` key, contrary to the claim's envelope
`{protocolVersion: "2.0", id, method, params}`. -/
theorem c4_no_protocolVersion_key :
    objKeys (getTransactionRequestBody "D" .null) = ["jsonrpc", "id", "method", "params"] ∧
    "protocolVersion" ∉ objKeys (getTransactionRequestBody "D" .null) := by
  refine ⟨rfl, by decide⟩

/-- C4 amended: every raw JSON-RPC request body built by the legacy node is
the envelope `{jsonrpc: "2.0", id, method, params}` (the version key is
named `jsonrpc`), and a response is treated as a failure exactly when its
`error` field is present and truthy, as a success otherwise. -/
theorem c4_amended :
    (∀ (digest : String) (options : JsonValue),
      objKeys (getTransactionRequestBody digest options)
          = ["jsonrpc", "id", "method", "params"] ∧
      jsGet (getTransactionRequestBody digest options) "jsonrpc" = some (.str "2.0") ∧
      jsGet (getTransactionRequestBody digest options) "method"
          = some (.str "sui_getTransaction")) ∧
    (∀ (digests : List JsonValue) (options : JsonValue),
      objKeys (multiGetTransactionsRequestBody digests options)
          = ["jsonrpc", "id", "method", "params"] ∧
      jsGet (multiGetTransactionsRequestBody digests options) "jsonrpc"
          = some (.str "2.0")) ∧
    (∀ (filter : JsonValue) (cursor : String) (limit : ℤ) (descendingOrder : Bool),
      objKeys (queryTransactionBlocksRequestBody filter cursor limit descendingOrder)
          = ["jsonrpc", "id", "method", "params"] ∧
      jsGet (queryTransactionBlocksRequestBody filter cursor limit descendingOrder) "jsonrpc"
          = some (.str "2.0")) ∧
    (∀ (txBytes : String) (signatures : List JsonValue) (options : JsonValue)
        (requestType : String),
      objKeys (executeTransactionBlockRequestBody txBytes signatures options requestType)
          = ["jsonrpc", "id", "method", "params"] ∧
      jsGet (executeTransactionBlockRequestBody txBytes signatures options requestType)
          "jsonrpc" = some (.str "2.0")) ∧
    (∀ txBytes : String,
      objKeys (dryRunTransactionBlockRequestBody txBytes)
          = ["jsonrpc", "id", "method", "params"] ∧
      jsGet (dryRunTransactionBlockRequestBody txBytes) "jsonrpc" = some (.str "2.0")) ∧
    (∀ senderAddress txBytes gasPrice epoch : String,
      objKeys (devInspectTransactionBlockRequestBody senderAddress txBytes gasPrice epoch)
          = ["jsonrpc", "id", "method", "params"] ∧
      jsGet (devInspectTransactionBlockRequestBody senderAddress txBytes gasPrice epoch)
          "jsonrpc" = some (.str "2.0")) ∧
    (∀ r : JsonValue,
      (∃ e, handleResponse r = Except.error e) ↔ truthyOpt (jsGet r "error") = true) := by
  refine ⟨fun _ _ => ⟨rfl, rfl, rfl⟩, fun _ _ => ⟨rfl, rfl⟩, fun _ _ _ _ => ⟨rfl, rfl⟩,
    fun _ _ _ _ => ⟨rfl, rfl⟩, fun _ => ⟨rfl, rfl⟩, fun _ _ _ _ => ⟨rfl, rfl⟩, ?_⟩
  intro r
  by_cases ht : truthyOpt (jsGet r "error") = true
  · simp [handleResponse, ht]
  · simp only [Bool.not_eq_true] at ht
    simp [handleResponse, ht]

/-- C5 counterexample: a response whose `result` value is falsy is not
passed through unmodified — `{result: 0}` surfaces the whole response
object, not the value `0`; and a response whose `error` field is present
but `null` does not fail. -/
theorem c5_falsy_result_not_passthrough :
    handleResponse (.obj [("result", .num 0)]) = .ok (.obj [("result", .num 0)]) ∧
    JsonValue.obj [("result", .num 0)] ≠ .num 0 ∧
    handleResponse (.obj [("error", .null)]) = .ok (.obj [("error", .null)]) := by
  exact ⟨rfl, fun h => JsonValue.noConfusion h, rfl⟩

/-- C5 amended: a response whose `error` field is truthy fails (the thrown
error carries the response); a response without an `error` field whose
`result` value is truthy surfaces exactly that value (e.g. the digest
pass-through); a response whose `result` value is falsy surfaces the whole
response object instead. -/
theorem c5_amended :
    (∀ r, truthyOpt (jsGet r "error") = true → handleResponse r = .error r) ∧
    (∀ r v, jsGet r "error" = none → jsGet r "result" = some v → truthy v = true →
      handleResponse r = .ok v) ∧
    (∀ r v, jsGet r "error" = none → jsGet r "result" = some v → truthy v = false →
      handleResponse r = .ok r) ∧
    handleResponse (.obj [("result", .obj [("digest", .str "X")])])
      = .ok (.obj [("digest", .str "X")]) := by
  refine ⟨?_, ?_, ?_, rfl⟩
  · intro r h
    simp [handleResponse, h]
  · intro r v he hr ht
    simp [handleResponse, truthyOpt, he, hr, ht]
  · intro r v he hr ht
    simp [handleResponse, truthyOpt, he, hr, ht]

/-- C5 amended witness: the truthy-error clause at a concrete error
response and the truthy-result pass-through clause at a concrete digest
response. -/
theorem c5_amended_witness :
    handleResponse (.obj [("error", .obj [("code", .num 1), ("message", .str "bad")])])
      = .error (.obj [("error", .obj [("code", .num 1), ("message", .str "bad")])]) ∧
    handleResponse (.obj [("result", .str "D")]) = .ok (.str "D") :=
  ⟨c5_amended.1 _ rfl, c5_amended.2.1 _ _ rfl rfl rfl⟩

/-! ### Signing-key precondition (C7) -/

/-- C7: with no private key in the credentials, `initializeSuiFromContext`
derives no keypair and no address (also for an empty-string key, falsy in
JavaScript), and every operation that signs — the four transfer operations,
the Move call, staking and unstaking — fails with its explicit
private-key-required error while issuing no remote call at all. -/
theorem c7_signing_key_required :
    ∀ (derive : Keypair → String) (network : String) (customRpcUrl : Option String)
      (scheme : KeyScheme) (faucetUrl : Option String)
      (recipient objectId validatorAddress stakedSuiId : String)
      (packageId moduleName functionName : String)
      (amount : ℚ) (recipients : List (String × ℚ)) (result : JsonValue),
    initializeSuiFromContext derive ⟨network, customRpcUrl, none, scheme, faucetUrl⟩
        = (none, none) ∧
    initializeSuiFromContext derive ⟨network, customRpcUrl, some "", scheme, faucetUrl⟩
        = (none, none) ∧
    transferSuiOperation none none recipient amount result
        = ⟨[], .error "Private key is required for transactions"⟩ ∧
    transferObjectOperation none none recipient objectId result
        = ⟨[], .error "Private key is required for transactions"⟩ ∧
    paySuiOperation none none recipients result
        = ⟨[], .error "Private key is required for transactions"⟩ ∧
    payAllSuiOperation none none recipient result
        = ⟨[], .error "Private key is required for transactions"⟩ ∧
    moveCallOperation none none packageId moduleName functionName result
        = ⟨[], .error "Private key is required for Move calls"⟩ ∧
    stakeSuiOperation none none validatorAddress amount result
        = ⟨[], .error "Private key is required for staking"⟩ ∧
    unstakeSuiOperation none none stakedSuiId result
        = ⟨[], .error "Private key is required for unstaking"⟩ := by
  intro _ _ _ _ _ _ _ _ _ _ _ _ _ _ _
  exact ⟨rfl, rfl, rfl, rfl, rfl, rfl, rfl, rfl, rfl⟩

/-! ### Per-item loop and continue-on-fail (C8) -/

/-- With `continueOnFail` the loop never aborts: it produces exactly the
pointwise outputs. -/
lemma executeLoopFrom_true (i : ℕ) (os : List (Except String JsonValue)) :
    executeLoopFrom i true os = .ok (outsFrom i os) := by
  induction os generalizing i with
  | nil => rfl
  | cons o rest ih =>
    cases h : itemResult o with
    | ok j => simp [executeLoopFrom, h, ih, outsFrom, itemOut]
    | error m => simp [executeLoopFrom, h, ih, outsFrom, itemOut]

/-- Pointwise outputs split across an append. -/
lemma outsFrom_append (i : ℕ) (xs ys : List (Except String JsonValue)) :
    outsFrom i (xs ++ ys) = outsFrom i xs ++ outsFrom (i + xs.length) ys := by
  induction xs generalizing i with
  | nil => simp [outsFrom]
  | cons x xs ih =>
    simp only [List.cons_append, outsFrom, List.length_cons, List.append_eq]
    rw [ih]
    have h1 : i + 1 + xs.length = i + (xs.length + 1) := by omega
    rw [h1]

/-- One output per item. -/
lemma outsFrom_length (i : ℕ) (os : List (Except String JsonValue)) :
    (outsFrom i os).length = os.length := by
  induction os generalizing i with
  | nil => rfl
  | cons o rest ih => simp [outsFrom, ih]

/-- Without `continueOnFail`, the first failing item aborts the whole run
with its error, whatever comes after it. -/
lemma executeLoopFrom_false_abort (pre : List (Except String JsonValue)) (e : String)
    (post : List (Except String JsonValue)) (i : ℕ)
    (h : ∀ o ∈ pre, (itemResult o).isOk = true) :
    executeLoopFrom i false (pre ++ .error e :: post) = .error e := by
  induction pre generalizing i with
  | nil => simp [executeLoopFrom, itemResult]
  | cons o pre' ih =>
    have ho := h o (by simp)
    cases hr : itemResult o with
    | ok j =>
      have hrec := ih (i + 1) (fun x hx => h x (List.mem_cons_of_mem _ hx))
      simp only [List.cons_append, executeLoopFrom, hr, List.append_eq, hrec]
    | error m => rw [hr] at ho; exact Bool.noConfusion ho

/-- C8: in the per-item loop, a throwing remote call at position
`pre.length` with `continueOnFail = true` yields an error record for that
item while every other item (before and after) still contributes its
output; with `continueOnFail = false` the same failure aborts the whole run
with that error immediately, independent of the items after it. -/
theorem c8_continue_on_fail (pre post : List (Except String JsonValue)) (e : String)
    (h : ∀ o ∈ pre, (itemResult o).isOk = true) :
    executeTransactionsOperations (pre ++ .error e :: post) true
        = .ok (outsFrom 0 (pre ++ .error e :: post)) ∧
    (outsFrom 0 (pre ++ .error e :: post)).length = pre.length + 1 + post.length ∧
    (outsFrom 0 (pre ++ .error e :: post))[pre.length]?
        = some ⟨.obj [("error", .str e)], pre.length⟩ ∧
    executeTransactionsOperations (pre ++ .error e :: post) false = .error e := by
  refine ⟨executeLoopFrom_true 0 _, ?_, ?_, executeLoopFrom_false_abort pre e post 0 h⟩
  · rw [outsFrom_length]; simp [List.length_append]; omega
  · rw [outsFrom_append]
    rw [List.getElem?_append_right (by rw [outsFrom_length])]
    simp [outsFrom_length, outsFrom, itemOut, itemResult]

/-- C8 witness: a concrete three-item run whose middle remote call throws,
with both settings of `continueOnFail`. -/
theorem c8_continue_on_fail_witness :
    executeTransactionsOperations
        [.ok (.obj [("result", .str "one")]), .error "boom",
         .ok (.obj [("result", .str "two")])] true
      = .ok (outsFrom 0 [.ok (.obj [("result", .str "one")]), .error "boom",
         .ok (.obj [("result", .str "two")])]) ∧
    executeTransactionsOperations
        [.ok (.obj [("result", .str "one")]), .error "boom",
         .ok (.obj [("result", .str "two")])] false
      = .error "boom" := by
  have h := c8_continue_on_fail [.ok (.obj [("result", .str "one")])]
      [.ok (.obj [("result", .str "two")])] "boom" (by decide)
  exact ⟨h.1, h.2.2.2⟩

/-! ### WebSocket reconnect logic (C9) -/

/-- C9 counterexample: a caller-initiated `close()` issued while a backoff
delay is pending does not suppress the already-scheduled reconnect attempt.
From the initial state, an unexpected socket close schedules the 1000 ms
backoff; the caller then closes; when the timer fires, `connect()` is still
invoked (the source re-checks nothing after its `setTimeout` sleep), so a
reconnect attempt happens after `close()`. -/
theorem c9_close_then_pending_reconnect :
    (wsRun wsInit [.socketClosed, .callerClose, .timerFire]).2
      = [.scheduleDelay 1000, .connectAttempt] ∧
    (wsRun wsInit [.socketClosed, .callerClose]).1.isClosing = true ∧
    (wsStep (wsRun wsInit [.socketClosed, .callerClose]).1 .timerFire).2
      = [.connectAttempt] := by
  exact ⟨rfl, rfl, rfl⟩

/-- One failed reconnect cycle below the attempt cap: schedule the backoff
of `reconnectDelay * 2 ^ attempts`, then the timer fires and `connect()` is
attempted, leaving the client with one more used attempt. -/
lemma wsRun_cycle (k : ℕ) (hk : k < maxReconnectAttempts) (rest : List WsEvent) :
    wsRun ⟨k, false, false⟩ (.socketClosed :: .timerFire :: rest)
      = ((wsRun ⟨k + 1, false, false⟩ rest).1,
         WsAction.scheduleDelay (reconnectDelay * 2 ^ k) :: WsAction.connectAttempt ::
           (wsRun ⟨k + 1, false, false⟩ rest).2) := by
  have hset : ¬(k ≥ maxReconnectAttempts) := by omega
  simp [wsRun, wsStep, handleReconnect, hset]

/-- One reconnect cycle at the attempt cap: only the terminal error is
reported; the timer is not pending, so its firing does nothing. -/
lemma wsRun_cycle_max (rest : List WsEvent) :
    wsRun ⟨maxReconnectAttempts, false, false⟩ (.socketClosed :: .timerFire :: rest)
      = ((wsRun ⟨maxReconnectAttempts, false, false⟩ rest).1,
         WsAction.errorSink "Max reconnection attempts reached" ::
           (wsRun ⟨maxReconnectAttempts, false, false⟩ rest).2) := by
  simp [wsRun, wsStep, handleReconnect]

/-- Outputs of `n` failed reconnect cycles started from `k` used attempts:
one backoff schedule of `reconnectDelay * 2 ^ (k + j)` plus one connect
attempt per cycle while attempts remain, then only terminal errors. -/
lemma wsRun_closeBurst (n : ℕ) : ∀ k, k ≤ maxReconnectAttempts →
    wsRun ⟨k, false, false⟩ (closeBurst n)
      = (⟨min (k + n) maxReconnectAttempts, false, false⟩,
         ((List.range (min n (maxReconnectAttempts - k))).map
            (fun j => [WsAction.scheduleDelay (reconnectDelay * 2 ^ (k + j)),
                       WsAction.connectAttempt])).flatten
           ++ List.replicate (n - (maxReconnectAttempts - k))
               (WsAction.errorSink "Max reconnection attempts reached")) := by
  induction n with
  | zero =>
    intro k hk
    have h1 : min (k + 0) maxReconnectAttempts = k := by omega
    simp [closeBurst, wsRun, h1, hk]
  | succ n ih =>
    intro k hk
    rcases Nat.lt_or_ge k maxReconnectAttempts with hk5 | hk5
    · rw [show closeBurst (n + 1) = .socketClosed :: .timerFire :: closeBurst n from rfl]
      rw [wsRun_cycle k hk5, ih (k + 1) (by omega)]
      have hstate : k + 1 + n = k + (n + 1) := by omega
      have hmin : min (n + 1) (maxReconnectAttempts - k)
          = min n (maxReconnectAttempts - (k + 1)) + 1 := by omega
      have hrep : n + 1 - (maxReconnectAttempts - k)
          = n - (maxReconnectAttempts - (k + 1)) := by omega
      rw [hstate] at *
      rw [hmin, hrep, List.range_succ_eq_map]
      simp only [List.map_cons, List.flatten_cons, List.map_map, Nat.add_zero,
        List.cons_append, List.nil_append]
      have hmapeq : List.map
          ((fun j => [WsAction.scheduleDelay (reconnectDelay * 2 ^ (k + j)),
                      WsAction.connectAttempt]) ∘ Nat.succ)
          (List.range (min n (maxReconnectAttempts - (k + 1))))
          = List.map
            (fun j => [WsAction.scheduleDelay (reconnectDelay * 2 ^ (k + 1 + j)),
                       WsAction.connectAttempt])
            (List.range (min n (maxReconnectAttempts - (k + 1)))) := by
        apply List.map_congr_left
        intro j _
        simp only [Function.comp_apply, Nat.succ_eq_add_one]
        have hj : k + (j + 1) = k + 1 + j := by omega
        rw [hj]
      rw [hmapeq]
    · have hk' : k = maxReconnectAttempts := by omega
      subst hk'
      rw [show closeBurst (n + 1) = .socketClosed :: .timerFire :: closeBurst n from rfl]
      rw [wsRun_cycle_max, ih maxReconnectAttempts (le_refl _)]
      have h1 : min (maxReconnectAttempts + (n + 1)) maxReconnectAttempts
          = min (maxReconnectAttempts + n) maxReconnectAttempts := by omega
      have h2 : min (n + 1) (maxReconnectAttempts - maxReconnectAttempts) = 0 := by omega
      have h3 : min n (maxReconnectAttempts - maxReconnectAttempts) = 0 := by omega
      have h4 : n + 1 - (maxReconnectAttempts - maxReconnectAttempts) = n + 1 := by omega
      have h5 : n - (maxReconnectAttempts - maxReconnectAttempts) = n := by omega
      rw [h1, h2, h3, h4, h5]
      simp [List.replicate_succ]

/-- After `close()` with no backoff pending, no event ever produces an
observable action again: reconnects and error-sink calls are suppressed. -/
lemma wsRun_closed (evts : List WsEvent) : ∀ a, (wsRun ⟨a, true, false⟩ evts).2 = [] := by
  induction evts with
  | nil => intro a; rfl
  | cons e rest ih =>
    intro a
    cases e <;> simp [wsRun, wsStep, ih]

/-- C9 amended: from a fresh client, `n` failed reconnect cycles schedule at
most `maxReconnectAttempts = 5` reconnect attempts, with backoff delays
`reconnectDelay * 2 ^ k` that strictly increase between consecutive
attempts, and every cycle past the cap reports only the terminal error.  A
caller-initiated `close()` leaves `isClosing` set with no output, and from a
closed state with no pending backoff no reconnect or error-sink activity
ever occurs; a `close()` during a pending backoff however does not cancel
that one already-scheduled attempt (see the counterexample). -/
theorem c9_amended :
    (∀ n, wsRun wsInit (closeBurst n)
        = (⟨min n maxReconnectAttempts, false, false⟩,
           ((List.range (min n maxReconnectAttempts)).map
              (fun k => [WsAction.scheduleDelay (reconnectDelay * 2 ^ k),
                         WsAction.connectAttempt])).flatten
             ++ List.replicate (n - maxReconnectAttempts)
                 (WsAction.errorSink "Max reconnection attempts reached"))) ∧
    (∀ k, reconnectDelay * 2 ^ k < reconnectDelay * 2 ^ (k + 1)) ∧
    (∀ s : WsState, wsStep s .callerClose = ({ s with isClosing := true }, [])) ∧
    (∀ (a : ℕ) (evts : List WsEvent), (wsRun ⟨a, true, false⟩ evts).2 = []) := by
  refine ⟨?_, ?_, fun s => rfl, fun a evts => wsRun_closed evts a⟩
  · intro n
    have h := wsRun_closeBurst n 0 (by omega)
    simpa using h
  · intro k
    have h2 : (2 : ℕ) ^ k < 2 ^ (k + 1) := by
      have := Nat.pow_lt_pow_succ (a := 2) (n := k) (by norm_num)
      simpa using this
    have hpos : 0 < reconnectDelay := by unfold reconnectDelay; norm_num
    exact mul_lt_mul_of_pos_left h2 hpos

end Sui
